import Mathlib

/-!
Verification of the Solidity build-driver core (compile task pipeline).

The definitions below shallowly embed the compile task file of the
repository: compilation-job filtering against the incremental cache,
job ordering, compiler acquisition with the solcjs fallback, error
checking of compiler output, artifact emission, and the cache update
performed after a successful build.  Helpers that live outside the
provided source (the solidity-files-cache module, the compiler
downloader, fully qualified names) are modelled from the
specification and marked as such in their doc comments.
-/

namespace HardhatCompile

/-- Semantic version as a numeric major.minor.patch triple; solc release
versions carry no prerelease tags, so numeric comparison is the full
semver comparison used by the code. -/
structure SemVer where
  major : Nat
  minor : Nat
  patch : Nat
  deriving DecidableEq, Repr

/-- Numeric semver comparison, component by component, as performed by the
semver library on release versions. -/
def semverCompare (a b : SemVer) : Ordering :=
  if a.major < b.major then Ordering.lt
  else if b.major < a.major then Ordering.gt
  else if a.minor < b.minor then Ordering.lt
  else if b.minor < a.minor then Ordering.gt
  else if a.patch < b.patch then Ordering.lt
  else if b.patch < a.patch then Ordering.gt
  else Ordering.eq

/-- Strictly-less test on versions, as semver.lt. -/
def semverLt (a b : SemVer) : Bool :=
  semverCompare a b == Ordering.lt

/-- Less-or-equal test on versions: the comparison is not gt. -/
def semverLe (a b : SemVer) : Bool :=
  !(semverCompare a b == Ordering.gt)

/-- Solc configuration of a compilation job: an exact version plus opaque
serialized settings forwarded to the compiler. -/
structure SolcConfig where
  version : SemVer
  settings : String
  deriving DecidableEq, Repr

/-- Resolved source file as used by the compile pipeline. -/
structure ResolvedFile where
  sourceName : String
  absolutePath : String
  contentHash : String
  lastModificationDate : Nat
  imports : List String
  versionPragmas : List String
  deriving DecidableEq, Repr

/-- Input file of a compilation job together with its artifact-emission
mark, so that job.emitsArtifacts is the mark of the pair. -/
structure JobFile where
  file : ResolvedFile
  emitsArtifacts : Bool
  deriving DecidableEq, Repr

/-- Compilation job: a solc configuration and the input files, each marked
with whether it emits artifacts. -/
structure CompilationJob where
  solcConfig : SolcConfig
  files : List JobFile
  deriving DecidableEq, Repr

def CompilationJob.getSolcConfig (job : CompilationJob) : SolcConfig :=
  job.solcConfig

def CompilationJob.getResolvedFiles (job : CompilationJob) : List ResolvedFile :=
  job.files.map (fun jf => jf.file)

/-- Modelled from the spec: cache entry of the solidity files cache (§3),
keyed by absolute path. -/
structure CacheEntry where
  lastModificationDate : Nat
  contentHash : String
  sourceName : String
  solcConfig : SolcConfig
  imports : List String
  versionPragmas : List String
  artifacts : List String
  deriving DecidableEq, Repr

/-- Modelled from the spec: the solidity files cache, a map from absolute
paths to cache entries (the solidity-files-cache module is not part of
the provided source). -/
structure SolidityFilesCache where
  files : String → Option CacheEntry

def SolidityFilesCache.getEntry (cache : SolidityFilesCache)
    (absolutePath : String) : Option CacheEntry :=
  cache.files absolutePath

/-- Modelled from the spec (§4.5): hasFileChanged returns true when no
entry exists for the path, when the stored content hash differs, or when
a solc config is provided and differs from the stored one. -/
def SolidityFilesCache.hasFileChanged (cache : SolidityFilesCache)
    (absolutePath : String) (contentHash : String)
    (solcConfig : Option SolcConfig) : Bool :=
  match cache.getEntry absolutePath with
  | none => true
  | some entry =>
    if entry.contentHash != contentHash then true
    else
      match solcConfig with
      | some config => config != entry.solcConfig
      | none => false

/-- Modelled from the spec: removing the entry of a path. -/
def SolidityFilesCache.removeEntry (cache : SolidityFilesCache)
    (absolutePath : String) : SolidityFilesCache :=
  ⟨fun p => if p = absolutePath then none else cache.files p⟩

/-- Modelled from the spec: adding or replacing the entry of a path. -/
def SolidityFilesCache.addFile (cache : SolidityFilesCache)
    (absolutePath : String) (entry : CacheEntry) : SolidityFilesCache :=
  ⟨fun p => if p = absolutePath then some entry else cache.files p⟩

/-- Empty cache, used by concrete examples. -/
def SolidityFilesCache.emptyCache : SolidityFilesCache :=
  ⟨fun _ => none⟩

/-- Solc config argument passed to hasFileChanged inside needsCompilation:
the job config exactly for artifact-emitting files, no config otherwise
(source lines 1443-1450). -/
def configForCacheCheck (job : CompilationJob) (jf : JobFile) :
    Option SolcConfig :=
  if jf.emitsArtifacts then some job.getSolcConfig else none

/-- needsCompilation from the source: the job needs compilation when some
input file has changed according to the cache, where the solc config is
checked only for files that emit artifacts. -/
def needsCompilation (job : CompilationJob) (cache : SolidityFilesCache) :
    Bool :=
  job.files.any (fun jf =>
    cache.hasFileChanged jf.file.absolutePath jf.file.contentHash
      (configForCacheCheck job jf))

/-- Filter subtask with a defined cache: with force it returns the jobs
unchanged, otherwise it keeps exactly the jobs that need compilation. -/
def TASK_COMPILE_SOLIDITY_FILTER_COMPILATION_JOBS
    (compilationJobs : List CompilationJob) (force : Bool)
    (solidityFilesCache : SolidityFilesCache) : List CompilationJob :=
  if force then compilationJobs
  else compilationJobs.filter (fun job => needsCompilation job solidityFilesCache)

/-- Sorted job list inside TASK_COMPILE_SOLIDITY_COMPILE_JOBS: the jobs
are sorted ascending by the solc version of their configuration using
the semver comparison (source lines 381-389). -/
def sortedCompilationJobs (compilationJobs : List CompilationJob) :
    List CompilationJob :=
  compilationJobs.mergeSort (fun job1 job2 =>
    semverLe job1.getSolcConfig.version job2.getSolcConfig.version)

/-- Compile-jobs subtask: on an empty list it returns no results; on a
non-empty list it executes each job of the sorted list in order,
collecting the per-job emitted artifacts (source lines 361-415).  The
execution of one job is abstracted as runJob. -/
def TASK_COMPILE_SOLIDITY_COMPILE_JOBS
    (compilationJobs : List CompilationJob)
    (runJob : CompilationJob → List (ResolvedFile × List String)) :
    List (CompilationJob × List (ResolvedFile × List String)) :=
  if compilationJobs.length = 0 then []
  else
    (sortedCompilationJobs compilationJobs).map (fun job => (job, runJob job))

/-- Compiler diagnostic of the standard JSON output. -/
structure CompilerDiagnostic where
  severity : String
  type : String
  message : String
  formattedMessage : String
  deriving DecidableEq, Repr

/-- Opaque per-contract compilation output. -/
structure ContractOutput where
  raw : String
  deriving DecidableEq, Repr

/-- Compiler standard JSON output: an optional diagnostics list and the
contracts map, keyed by source name then contract name. -/
structure CompilerOutput where
  errors : Option (List CompilerDiagnostic)
  contracts : List (String × List (String × ContractOutput))
  deriving DecidableEq, Repr

/-- hasCompilationErrors from the source: true when the errors field is
present and some diagnostic has severity error. -/
def hasCompilationErrors (output : CompilerOutput) : Bool :=
  match output.errors with
  | none => false
  | some errs => errs.any (fun x => x.severity == "error")

/-- Errors raised by the embedded compile pipeline. -/
inductive HardhatError where
  | compileFailure
  | cantGetCompiler (version : SemVer)
  | unsupportedSolcVersion (version firstSupportedVersion : SemVer)
  deriving DecidableEq, Repr

/-- Check-errors subtask: throws the compilation-failure error exactly
when the output has a diagnostic of severity error (source lines
751-765). -/
def TASK_COMPILE_SOLIDITY_CHECK_ERRORS (output : CompilerOutput) :
    Except HardhatError Unit :=
  if hasCompilationErrors output then
    Except.error HardhatError.compileFailure
  else Except.ok ()

/-- Modelled from the spec: fully qualified name of a contract, made of
its source name and contract name (the contract-names util is not part
of the provided source). -/
def getFullyQualifiedName (sourceName contractName : String) : String :=
  sourceName ++ ":" ++ contractName

/-- Artifact store interface consumed by cache invalidation: an existence
check per fully qualified name. -/
structure ArtifactsInterface where
  artifactExists : String → Bool

/-- Body of the invalidation loop of invalidateCacheMissingArtifacts:
given a cached entry, keep it when every recorded emitted artifact
exists, drop it otherwise (source lines 1410-1431). -/
def invalidateStep (store : ArtifactsInterface)
    (cache : SolidityFilesCache) (file : ResolvedFile) :
    SolidityFilesCache :=
  match cache.getEntry file.absolutePath with
  | none => cache
  | some cacheEntry =>
    if cacheEntry.artifacts.all (fun a =>
        store.artifactExists (getFullyQualifiedName file.sourceName a)) then
      cache
    else
      cache.removeEntry file.absolutePath

/-- invalidateCacheMissingArtifacts from the source: for every resolved
file with a cache entry, drop the entry when some recorded emitted
artifact is missing from the artifact store. -/
def invalidateCacheMissingArtifacts (solidityFilesCache : SolidityFilesCache)
    (store : ArtifactsInterface) (resolvedFiles : List ResolvedFile) :
    SolidityFilesCache :=
  resolvedFiles.foldl (invalidateStep store) solidityFilesCache

/-- Validity test used by the invalidation loop: every recorded emitted
artifact of the entry exists in the store. -/
def entryArtifactsAllExist (store : ArtifactsInterface) (file : ResolvedFile)
    (entry : CacheEntry) : Bool :=
  entry.artifacts.all (fun a =>
    store.artifactExists (getFullyQualifiedName file.sourceName a))

/-- Platform of a downloaded compiler build. -/
inductive CompilerPlatform where
  | linux
  | windows
  | macos
  | wasm
  deriving DecidableEq, Repr, BEq

/-- Observable behaviour of one probe invocation of a native solc binary:
the exit code eventually passed to the exit handler (none models a
signal-terminated process) and the run time of the process. -/
structure ProbeBehavior where
  exitCode : Option Int
  runtimeMs : Nat
  deriving DecidableEq, Repr

/-- checkSolcBinary from the source: run the binary with the version flag
and report success exactly when the process exits with code 0.  The exec
call passes no timeout option, so the run time never influences the
result (source lines 1466-1473). -/
def checkSolcBinary (probeResult : ProbeBehavior) : Bool :=
  probeResult.exitCode == some 0

/-- Modelled from the spec (§4.6 and §5): a probe judged working only
when the binary exits with code 0 within the 10 second default
timeout. -/
def checkSolcBinarySpecTimeout (probeResult : ProbeBehavior) : Bool :=
  probeResult.exitCode == some 0 && decide (probeResult.runtimeMs ≤ 10000)

/-- Result of a downloader lookup: a compiler path and its platform. -/
structure DownloadedCompiler where
  compilerPath : String
  platform : CompilerPlatform
  deriving DecidableEq, Repr

/-- SolcBuild returned by compiler acquisition. -/
structure SolcBuild where
  compilerPath : String
  isSolcJs : Bool
  version : SemVer
  longVersion : String
  deriving DecidableEq, Repr

/-- Modelled from the spec: environment of one compiler acquisition (the
downloader module is not part of the provided source).  It records the
requested version, the long version and desired platform reported by the
build index, the result of the default downloader, the result of the
forced-solcjs downloader, and the probe behaviour per binary path. -/
structure SolcAcquisitionEnv where
  solcVersion : SemVer
  longVersion : String
  desiredPlatform : CompilerPlatform
  downloadedCompilerPath : Option DownloadedCompiler
  solcJsCompilerPath : Option DownloadedCompiler
  probe : String → ProbeBehavior

/-- Fallback branch of the acquisition subtask: ask the forced-solcjs
downloader for a compiler; if none is available raise the
cannot-acquire-compiler error, otherwise return a solcjs build (source
lines 540-556, with the final platform set to WASM). -/
def solcJsFallback (env : SolcAcquisitionEnv) : Except HardhatError SolcBuild :=
  match env.solcJsCompilerPath with
  | none => Except.error (HardhatError.cantGetCompiler env.solcVersion)
  | some res =>
    Except.ok ⟨res.compilerPath, true, env.solcVersion, env.longVersion⟩

/-- Acquisition subtask (source lines 474-573).  When the default
downloader has no compiler: if the desired platform is WASM the error is
raised at once, otherwise the native binary is marked failed.  When a
compiler is present and is not WASM it is probed; a failed probe marks
the native binary failed.  A failed native binary triggers the solcjs
fallback.  The isSolcJs flag of the result is true exactly when the
fallback branch assigned the WASM platform. -/
def TASK_COMPILE_SOLIDITY_GET_SOLC_BUILD (env : SolcAcquisitionEnv) :
    Except HardhatError SolcBuild :=
  match env.downloadedCompilerPath with
  | none =>
    if env.desiredPlatform == CompilerPlatform.wasm then
      Except.error (HardhatError.cantGetCompiler env.solcVersion)
    else
      solcJsFallback env
  | some res =>
    if !(res.platform == CompilerPlatform.wasm)
        && !(checkSolcBinary (env.probe res.compilerPath)) then
      solcJsFallback env
    else
      Except.ok ⟨res.compilerPath, false, env.solcVersion, env.longVersion⟩

/-- Condition under which the source sets nativeBinaryFailed: either no
compiler was downloaded and the desired platform is not WASM, or a
non-WASM compiler was downloaded and its probe failed. -/
def nativeBinaryFailedCondition (env : SolcAcquisitionEnv) : Bool :=
  match env.downloadedCompilerPath with
  | none => !(env.desiredPlatform == CompilerPlatform.wasm)
  | some res =>
    !(res.platform == CompilerPlatform.wasm)
      && !(checkSolcBinary (env.probe res.compilerPath))

/-- Compiler standard JSON input. -/
structure CompilerInput where
  language : String
  sources : List (String × String)
  settings : String
  deriving DecidableEq, Repr

/-- First solc version supported by the compile task (source line 102). -/
def COMPILE_TASK_FIRST_SOLC_VERSION_SUPPORTED : SemVer := ⟨0, 4, 11⟩

/-- Compile-with-solc subtask (source lines 622-698): versions older than
0.4.11 raise the unsupported-version error before any acquisition;
otherwise the build is acquired and the input is run through solcjs or
native solc according to the isSolcJs flag of the build. -/
def TASK_COMPILE_SOLIDITY_COMPILE_SOLC (env : SolcAcquisitionEnv)
    (input : CompilerInput)
    (runSolc runSolcJs : String → CompilerInput → CompilerOutput) :
    Except HardhatError (CompilerOutput × SolcBuild) :=
  if semverLt env.solcVersion COMPILE_TASK_FIRST_SOLC_VERSION_SUPPORTED then
    Except.error (HardhatError.unsupportedSolcVersion env.solcVersion
      COMPILE_TASK_FIRST_SOLC_VERSION_SUPPORTED)
  else
    match TASK_COMPILE_SOLIDITY_GET_SOLC_BUILD env with
    | Except.error e => Except.error e
    | Except.ok solcBuild =>
      let output :=
        if solcBuild.isSolcJs then runSolcJs solcBuild.compilerPath input
        else runSolc solcBuild.compilerPath input
      Except.ok (output, solcBuild)

/-- Artifact of one contract, identified by source name and contract
name. -/
structure Artifact where
  sourceName : String
  contractName : String
  deriving DecidableEq, Repr

/-- Modelled from the spec: artifact built from the compilation output of
one contract (getArtifactFromContractOutput is not part of the provided
source); only the identity matters here. -/
def getArtifactFromContractOutput (sourceName contractName : String)
    (_contractOutput : ContractOutput) : Artifact :=
  ⟨sourceName, contractName⟩

/-- Build-info record saved once per compiled job. -/
structure BuildInfoRecord where
  solcVersion : SemVer
  solcLongVersion : String
  deriving DecidableEq, Repr

/-- State of the artifact store during emission: saved artifacts, each
paired with the path of its build info (the debug file is saved together
with the artifact), and the saved build-info records. -/
structure ArtifactsState where
  savedArtifacts : List (Artifact × String)
  savedBuildInfos : List BuildInfoRecord
  deriving DecidableEq, Repr

/-- saveBuildInfo of the artifact store: append one build-info record and
return its path. -/
def saveBuildInfo (st : ArtifactsState) (solcVersion : SemVer)
    (solcLongVersion : String) : ArtifactsState × String :=
  ({ st with savedBuildInfos := st.savedBuildInfos ++ [⟨solcVersion, solcLongVersion⟩] },
    toString st.savedBuildInfos.length)

/-- Contracts of the compiler output for one source name, empty when the
source name is absent (the source reads output.contracts of the source
name with an empty-object default). -/
def contractsOfSource (output : CompilerOutput) (sourceName : String) :
    List (String × ContractOutput) :=
  (output.contracts.lookup sourceName).getD []

/-- Body of the per-file emission loop: a file that does not emit
artifacts is skipped; for an emitting file every contract of its source
name is turned into an artifact, saved with the build-info path, and its
contract name is recorded (source lines 801-831). -/
def emitStep (output : CompilerOutput) (pathToBuildInfo : String)
    (acc : ArtifactsState × List (ResolvedFile × List String))
    (jf : JobFile) : ArtifactsState × List (ResolvedFile × List String) :=
  if !jf.emitsArtifacts then acc
  else
    let emitted := (contractsOfSource output jf.file.sourceName).map
      (fun pr => getArtifactFromContractOutput jf.file.sourceName pr.1 pr.2)
    ({ acc.1 with savedArtifacts :=
        acc.1.savedArtifacts ++ emitted.map (fun a => (a, pathToBuildInfo)) },
      acc.2 ++ [(jf.file, emitted.map (fun a => a.contractName))])

/-- Emit-artifacts subtask (source lines 771-835): save exactly one build
info for the job, then walk the input files, emitting artifacts only for
files marked as artifact-emitting. -/
def TASK_COMPILE_SOLIDITY_EMIT_ARTIFACTS (compilationJob : CompilationJob)
    (output : CompilerOutput) (solcBuild : SolcBuild)
    (st : ArtifactsState) :
    ArtifactsState × List (ResolvedFile × List String) :=
  let saved := saveBuildInfo st compilationJob.getSolcConfig.version
    solcBuild.longVersion
  compilationJob.files.foldl (emitStep output saved.2) (saved.1, [])

/-- Cache entry written for one emitted file at the end of a successful
build (source lines 1343-1353): current hash and metadata of the file,
the solc config of the job that compiled it, and the emitted artifact
names. -/
def cacheEntryOfEmitted (job : CompilationJob)
    (fileEntry : ResolvedFile × List String) : CacheEntry :=
  { lastModificationDate := fileEntry.1.lastModificationDate
    contentHash := fileEntry.1.contentHash
    sourceName := fileEntry.1.sourceName
    solcConfig := job.getSolcConfig
    imports := fileEntry.1.imports
    versionPragmas := fileEntry.1.versionPragmas
    artifacts := fileEntry.2 }

/-- Cache update for the emitted files of one job. -/
def addEmittedFilesOfJob (job : CompilationJob) (cache : SolidityFilesCache)
    (emitted : List (ResolvedFile × List String)) : SolidityFilesCache :=
  emitted.foldl (fun c fileEntry =>
    c.addFile fileEntry.1.absolutePath (cacheEntryOfEmitted job fileEntry)) cache

/-- Cache update loop of TASK_COMPILE_SOLIDITY (source lines 1338-1354):
for every compiled job and every file with emitted artifacts, store the
corresponding cache entry at the absolute path of the file. -/
def updateSolidityFilesCache (solidityFilesCache : SolidityFilesCache)
    (artifactsEmittedPerJob :
      List (CompilationJob × List (ResolvedFile × List String))) :
    SolidityFilesCache :=
  artifactsEmittedPerJob.foldl
    (fun cache jobEntry => addEmittedFilesOfJob jobEntry.1 cache jobEntry.2)
    solidityFilesCache

/-- Absolute paths of all files recorded as emitted across the jobs. -/
def allEmittedPaths (artifactsEmittedPerJob :
    List (CompilationJob × List (ResolvedFile × List String))) :
    List String :=
  artifactsEmittedPerJob.flatMap
    (fun jobEntry => jobEntry.2.map (fun fileEntry => fileEntry.1.absolutePath))

/-! Helper lemmas about the semver comparison. -/

theorem semverLe_eq_true_iff (a b : SemVer) :
    semverLe a b = true ↔
      a.major < b.major ∨ (a.major = b.major ∧ (a.minor < b.minor ∨
        (a.minor = b.minor ∧ a.patch ≤ b.patch))) := by
  unfold semverLe semverCompare
  split_ifs with h1 h2 h3 h4 h5 h6 <;>
    simp only [show (Ordering.lt == Ordering.gt) = false from rfl,
      show (Ordering.gt == Ordering.gt) = true from rfl,
      show (Ordering.eq == Ordering.gt) = false from rfl,
      Bool.not_false, Bool.not_true, true_iff, false_iff,
      show (true = true) = True from by simp,
      show (false = true) = False from by simp] <;>
    omega

theorem semverLe_trans (a b c : SemVer) (hab : semverLe a b = true)
    (hbc : semverLe b c = true) : semverLe a c = true := by
  rw [semverLe_eq_true_iff] at hab hbc ⊢
  omega

theorem semverLe_total (a b : SemVer) :
    (semverLe a b || semverLe b a) = true := by
  by_cases h : semverLe a b = true
  · simp [h]
  · have h2 : semverLe b a = true := by
      rw [semverLe_eq_true_iff]
      rw [semverLe_eq_true_iff] at h
      omega
    simp [h2]

/-- Every error of the acquisition subtask is the cannot-acquire-compiler
error for the requested version. -/
theorem get_solc_build_error_shape (env : SolcAcquisitionEnv)
    (e : HardhatError)
    (hb : TASK_COMPILE_SOLIDITY_GET_SOLC_BUILD env = Except.error e) :
    e = HardhatError.cantGetCompiler env.solcVersion := by
  unfold TASK_COMPILE_SOLIDITY_GET_SOLC_BUILD solcJsFallback at hb
  rcases hd : env.downloadedCompilerPath with _ | res <;>
    rcases hj : env.solcJsCompilerPath with _ | js <;>
      simp only [hd, hj] at hb <;> split_ifs at hb <;> simp_all

/-! Claim theorems. -/

/-- Claim C1, counterexample: a job whose single artifact-emitting file
passes the cache check of §4.5 (entry present, stored hash and solc
config equal) but whose dependency file has a changed content hash is
not dropped by the filter subtask, contradicting the claim that such a
job is dropped exactly when every artifact-emitting file passes the
check. -/
theorem filter_jobs_claimed_condition_fails :
    (let cfg : SolcConfig := ⟨⟨0, 8, 17⟩, "default"⟩
     let root : ResolvedFile :=
       ⟨"contracts/A.sol", "/p/A.sol", "hashA", 0, ["contracts/D.sol"], ["^0.8.0"]⟩
     let dep : ResolvedFile :=
       ⟨"contracts/D.sol", "/p/D.sol", "hashD2", 0, [], ["^0.8.0"]⟩
     let cache : SolidityFilesCache :=
       ⟨fun p =>
         if p = "/p/A.sol" then
           some ⟨0, "hashA", "contracts/A.sol", ⟨⟨0, 8, 17⟩, "default"⟩,
             ["contracts/D.sol"], ["^0.8.0"], ["A"]⟩
         else if p = "/p/D.sol" then
           some ⟨0, "hashD1", "contracts/D.sol", ⟨⟨0, 8, 17⟩, "default"⟩,
             [], ["^0.8.0"], []⟩
         else none⟩
     let job : CompilationJob := ⟨cfg, [⟨root, true⟩, ⟨dep, false⟩]⟩
     (job.files.all (fun jf =>
        !jf.emitsArtifacts ||
          !(cache.hasFileChanged jf.file.absolutePath jf.file.contentHash
            (some job.getSolcConfig)))) = true ∧
       TASK_COMPILE_SOLIDITY_FILTER_COMPILATION_JOBS [job] false cache =
         [job]) := by
  exact ⟨by decide, by decide⟩

/-- Claim C1, amended: with force disabled and a defined cache, a job is
dropped exactly when every input file of the job, artifact-emitting or
not, passes the cache check of §4.5, where the solc config is compared
only for artifact-emitting files; equivalently, a job survives the
filter exactly when it was given and some input file fails its check,
and a surviving job keeps all of its input files. -/
theorem filter_compilation_jobs_drops_iff_every_file_unchanged
    (compilationJobs : List CompilationJob) (cache : SolidityFilesCache)
    (job : CompilationJob) :
    job ∈ TASK_COMPILE_SOLIDITY_FILTER_COMPILATION_JOBS compilationJobs false cache ↔
      job ∈ compilationJobs ∧
        (job.files.any (fun jf =>
          cache.hasFileChanged jf.file.absolutePath jf.file.contentHash
            (configForCacheCheck job jf))) = true := by
  unfold TASK_COMPILE_SOLIDITY_FILTER_COMPILATION_JOBS
  simp [needsCompilation, List.mem_filter]

/-- Claim C3: inside the per-file cache check of needsCompilation, the
solc config argument handed to hasFileChanged is the config of the job
exactly for artifact-emitting files and absent for pure dependencies,
and a check without config compares only entry existence and stored
content hash. -/
theorem needs_compilation_config_only_for_emitting
    (job : CompilationJob) (cache : SolidityFilesCache) :
    (needsCompilation job cache =
      job.files.any (fun jf =>
        cache.hasFileChanged jf.file.absolutePath jf.file.contentHash
          (configForCacheCheck job jf))) ∧
    (∀ jf : JobFile,
      (configForCacheCheck job jf = some job.getSolcConfig ↔
        jf.emitsArtifacts = true) ∧
      (configForCacheCheck job jf = none ↔ jf.emitsArtifacts = false)) ∧
    (∀ absolutePath contentHash,
      cache.hasFileChanged absolutePath contentHash none =
        !((cache.getEntry absolutePath).any
          (fun entry => entry.contentHash == contentHash))) := by
  refine ⟨rfl, ?_, ?_⟩
  · intro jf
    unfold configForCacheCheck
    cases h : jf.emitsArtifacts <;> simp [h]
  · intro absolutePath contentHash
    unfold SolidityFilesCache.hasFileChanged
    cases h : cache.getEntry absolutePath with
    | none => simp
    | some entry =>
      simp only [Option.any_some]
      by_cases hh : entry.contentHash = contentHash <;> simp [hh]

/-- Claim C5: the check-errors subtask throws the compilation-failure
error exactly when some diagnostic of the output has severity error, and
succeeds exactly when no diagnostic does (in particular on a
warnings-only or diagnostic-free output). -/
theorem check_errors_throws_iff_error_severity (output : CompilerOutput) :
    (TASK_COMPILE_SOLIDITY_CHECK_ERRORS output =
        Except.error HardhatError.compileFailure ↔
      ((output.errors.getD []).any (fun x => x.severity == "error")) = true) ∧
    (TASK_COMPILE_SOLIDITY_CHECK_ERRORS output = Except.ok () ↔
      ((output.errors.getD []).any (fun x => x.severity == "error")) = false) := by
  unfold TASK_COMPILE_SOLIDITY_CHECK_ERRORS hasCompilationErrors
  cases h : output.errors with
  | none => simp [h]
  | some errs =>
    by_cases hc : (errs.any (fun x => x.severity == "error")) = true <;>
      simp [h, hc]

/-- Claim C10: for a solc version older than 0.4.11 the compile-with-solc
subtask raises the unsupported-version error identically for every
acquisition environment and every compiler runner, hence before any
compiler is acquired or invoked; for a version at or above 0.4.11 the
unsupported-version error is never raised. -/
theorem compile_solc_unsupported_version_guard (env : SolcAcquisitionEnv)
    (input : CompilerInput)
    (runSolc runSolcJs : String → CompilerInput → CompilerOutput) :
    (semverLt env.solcVersion COMPILE_TASK_FIRST_SOLC_VERSION_SUPPORTED = true →
      TASK_COMPILE_SOLIDITY_COMPILE_SOLC env input runSolc runSolcJs =
        Except.error (HardhatError.unsupportedSolcVersion env.solcVersion
          COMPILE_TASK_FIRST_SOLC_VERSION_SUPPORTED)) ∧
    (semverLt env.solcVersion COMPILE_TASK_FIRST_SOLC_VERSION_SUPPORTED = false →
      ∀ v fs, TASK_COMPILE_SOLIDITY_COMPILE_SOLC env input runSolc runSolcJs ≠
        Except.error (HardhatError.unsupportedSolcVersion v fs)) := by
  constructor
  · intro hlt
    unfold TASK_COMPILE_SOLIDITY_COMPILE_SOLC
    rw [if_pos hlt]
  · intro hge v fs
    unfold TASK_COMPILE_SOLIDITY_COMPILE_SOLC
    rw [if_neg (by simp [hge])]
    cases hb : TASK_COMPILE_SOLIDITY_GET_SOLC_BUILD env with
    | error e =>
      have he := get_solc_build_error_shape env e hb
      subst he
      simp
    | ok solcBuild => simp

/-- Claim C10, witness: version 0.4.10 is rejected with the
unsupported-version error and version 0.4.11 is never rejected with it,
in a concrete acquisition environment. -/
theorem compile_solc_unsupported_version_guard_witness :
    (TASK_COMPILE_SOLIDITY_COMPILE_SOLC
        ⟨⟨0, 4, 10⟩, "0.4.10+commit", CompilerPlatform.linux, none, none,
          fun _ => ⟨some 0, 5⟩⟩
        ⟨"Solidity", [], "{}"⟩ (fun _ _ => ⟨none, []⟩) (fun _ _ => ⟨none, []⟩) =
      Except.error (HardhatError.unsupportedSolcVersion ⟨0, 4, 10⟩
        COMPILE_TASK_FIRST_SOLC_VERSION_SUPPORTED)) ∧
    (∀ v fs,
      TASK_COMPILE_SOLIDITY_COMPILE_SOLC
        ⟨⟨0, 4, 11⟩, "0.4.11+commit", CompilerPlatform.linux, none,
          some ⟨"/cache/soljson.js", CompilerPlatform.wasm⟩,
          fun _ => ⟨some 0, 5⟩⟩
        ⟨"Solidity", [], "{}"⟩ (fun _ _ => ⟨none, []⟩) (fun _ _ => ⟨none, []⟩) ≠
      Except.error (HardhatError.unsupportedSolcVersion v fs)) := by
  constructor
  · exact (compile_solc_unsupported_version_guard _ _ _ _).1 (by decide)
  · exact (compile_solc_unsupported_version_guard _ _ _ _).2 (by decide)

/-- Claim C2: the compile-jobs subtask executes each given job exactly
once (the executed job list is a permutation of the input list) and
sequentially in ascending solc version order: the configured compiler
version of an earlier executed job is less-or-equal, by semver
comparison, to that of every later executed job. -/
theorem compile_jobs_run_once_in_ascending_version_order
    (compilationJobs : List CompilationJob)
    (runJob : CompilationJob → List (ResolvedFile × List String)) :
    ((TASK_COMPILE_SOLIDITY_COMPILE_JOBS compilationJobs runJob).map
        Prod.fst).Perm compilationJobs ∧
    ((TASK_COMPILE_SOLIDITY_COMPILE_JOBS compilationJobs runJob).map
        Prod.fst).Pairwise (fun job1 job2 =>
          semverLe job1.getSolcConfig.version job2.getSolcConfig.version =
            true) := by
  unfold TASK_COMPILE_SOLIDITY_COMPILE_JOBS sortedCompilationJobs
  by_cases h : compilationJobs.length = 0
  · rw [if_pos h]
    rw [List.length_eq_zero] at h
    subst h
    simp
  · rw [if_neg h, List.map_map]
    have hmap : (Prod.fst ∘ fun job => (job, runJob job)) = id := rfl
    rw [hmap, List.map_id]
    constructor
    · exact List.mergeSort_perm compilationJobs _
    · exact @List.sorted_mergeSort CompilationJob
        (fun job1 job2 =>
          semverLe job1.getSolcConfig.version job2.getSolcConfig.version)
        (fun j1 j2 j3 hab hbc => semverLe_trans _ _ _ hab hbc)
        (fun j1 j2 => semverLe_total _ _) compilationJobs

/-- Claim C6: when the native binary is unavailable or its probe fails,
acquisition falls back to the solcjs build of the same version: when no
solcjs compiler can be obtained it raises the cannot-acquire-compiler
error, otherwise it returns the solcjs build; and a successfully
returned build has isSolcJs true exactly when the fallback was used. -/
theorem get_solc_build_fallback_behaviour (env : SolcAcquisitionEnv) :
    (nativeBinaryFailedCondition env = true → env.solcJsCompilerPath = none →
      TASK_COMPILE_SOLIDITY_GET_SOLC_BUILD env =
        Except.error (HardhatError.cantGetCompiler env.solcVersion)) ∧
    (∀ res, nativeBinaryFailedCondition env = true →
      env.solcJsCompilerPath = some res →
      TASK_COMPILE_SOLIDITY_GET_SOLC_BUILD env =
        Except.ok ⟨res.compilerPath, true, env.solcVersion, env.longVersion⟩) ∧
    (∀ b, TASK_COMPILE_SOLIDITY_GET_SOLC_BUILD env = Except.ok b →
      (b.isSolcJs = true ↔ nativeBinaryFailedCondition env = true)) := by
  unfold TASK_COMPILE_SOLIDITY_GET_SOLC_BUILD nativeBinaryFailedCondition
    solcJsFallback
  rcases hd : env.downloadedCompilerPath with _ | res0 <;>
    rcases hj : env.solcJsCompilerPath with _ | js <;>
      simp only [hd, hj] <;> split_ifs <;> simp_all

/-- Claim C6, witness: a concrete environment in which a native linux
binary is present but its probe exits with code 1, and a solcjs build is
available; the fallback is taken and the returned build is the solcjs
one with isSolcJs true. -/
theorem get_solc_build_fallback_witness :
    (let env : SolcAcquisitionEnv :=
      ⟨⟨0, 8, 17⟩, "0.8.17+commit", CompilerPlatform.linux,
        some ⟨"/cache/solc-linux", CompilerPlatform.linux⟩,
        some ⟨"/cache/soljson.js", CompilerPlatform.wasm⟩,
        fun _ => ⟨some 1, 5⟩⟩
     nativeBinaryFailedCondition env = true ∧
      env.solcJsCompilerPath = some ⟨"/cache/soljson.js", CompilerPlatform.wasm⟩ ∧
      TASK_COMPILE_SOLIDITY_GET_SOLC_BUILD env =
        Except.ok ⟨"/cache/soljson.js", true, ⟨0, 8, 17⟩, "0.8.17+commit"⟩) := by
  exact ⟨rfl, rfl,
    (get_solc_build_fallback_behaviour _).2.1
      ⟨"/cache/soljson.js", CompilerPlatform.wasm⟩ rfl rfl⟩

/-- Claim C7, counterexample: a probe whose process exits with code 0
after 20 seconds is judged working by checkSolcBinary, although the
claimed 10-second-timeout check rejects it: the source exec call sets no
timeout, so exit within the claimed timeout is not required. -/
theorem check_solc_binary_timeout_counterexample :
    checkSolcBinary ⟨some 0, 20000⟩ = true ∧
      checkSolcBinarySpecTimeout ⟨some 0, 20000⟩ = false := by
  exact ⟨rfl, rfl⟩

/-- Claim C7, amended: the native binary is judged working if and only if
the version invocation exits with code 0, with no timeout applied (the
run time of the probe never influences the judgement); a probe that
exits non-zero marks the native binary as failed, which triggers the
portable fallback of the acquisition subtask. -/
theorem check_solc_binary_amended (probeResult : ProbeBehavior)
    (env : SolcAcquisitionEnv) (res : DownloadedCompiler) :
    (checkSolcBinary probeResult = (probeResult.exitCode == some 0)) ∧
    (∀ code t1 t2, checkSolcBinary ⟨code, t1⟩ = checkSolcBinary ⟨code, t2⟩) ∧
    (env.downloadedCompilerPath = some res →
      (res.platform == CompilerPlatform.wasm) = false →
      checkSolcBinary (env.probe res.compilerPath) = false →
      nativeBinaryFailedCondition env = true) := by
  refine ⟨rfl, fun code t1 t2 => rfl, ?_⟩
  intro hd hp hc
  unfold nativeBinaryFailedCondition
  rw [hd]
  simp [hp, hc]

/-- Claim C7, witness: a concrete environment whose native binary probe
exits with code 1; the probe fails and the native binary is marked
failed. -/
theorem check_solc_binary_amended_witness :
    (let env : SolcAcquisitionEnv :=
      ⟨⟨0, 8, 17⟩, "0.8.17+commit", CompilerPlatform.linux,
        some ⟨"/opt/solc", CompilerPlatform.linux⟩, none,
        fun _ => ⟨some 1, 80⟩⟩
     checkSolcBinary (env.probe "/opt/solc") = false ∧
      nativeBinaryFailedCondition env = true) := by
  exact ⟨rfl,
    (check_solc_binary_amended ⟨some 1, 80⟩ _
      ⟨"/opt/solc", CompilerPlatform.linux⟩).2.2 rfl rfl rfl⟩

/-! Helper lemmas about the invalidation loop. -/

theorem invalidateStep_getEntry_self (store : ArtifactsInterface)
    (cache : SolidityFilesCache) (file : ResolvedFile) :
    (invalidateStep store cache file).getEntry file.absolutePath =
      ((cache.getEntry file.absolutePath).bind (fun entry =>
        if entryArtifactsAllExist store file entry then some entry
        else none)) := by
  unfold invalidateStep entryArtifactsAllExist
  cases h : cache.getEntry file.absolutePath with
  | none => simp [h]
  | some entry =>
    simp only [h, Option.some_bind]
    split_ifs with hall
    · exact h
    · simp [SolidityFilesCache.removeEntry, SolidityFilesCache.getEntry]

theorem invalidateStep_getEntry_ne (store : ArtifactsInterface)
    (cache : SolidityFilesCache) (file : ResolvedFile) (p : String)
    (hne : p ≠ file.absolutePath) :
    (invalidateStep store cache file).getEntry p = cache.getEntry p := by
  unfold invalidateStep
  cases h : cache.getEntry file.absolutePath with
  | none => rfl
  | some entry =>
    dsimp only
    split_ifs with hall
    · rfl
    · simp [SolidityFilesCache.removeEntry, SolidityFilesCache.getEntry, hne]

/-- Claim C4: after invalidateCacheMissingArtifacts, for every resolved
file the cache entry at its absolute path is removed exactly when that
entry existed and some recorded emitted artifact is missing from the
artifact store; an entry whose recorded artifacts all exist is kept
unchanged; entries keyed by paths not among the resolved files are left
untouched.  Resolved files are assumed to have pairwise distinct
absolute paths. -/
theorem invalidate_cache_missing_artifacts_exact
    (cache : SolidityFilesCache) (store : ArtifactsInterface)
    (resolvedFiles : List ResolvedFile)
    (hnd : (resolvedFiles.map (fun f => f.absolutePath)).Nodup) :
    (∀ f ∈ resolvedFiles,
      (invalidateCacheMissingArtifacts cache store resolvedFiles).getEntry
          f.absolutePath =
        ((cache.getEntry f.absolutePath).bind (fun entry =>
          if entryArtifactsAllExist store f entry then some entry
          else none))) ∧
    (∀ p, p ∉ resolvedFiles.map (fun f => f.absolutePath) →
      (invalidateCacheMissingArtifacts cache store resolvedFiles).getEntry p =
        cache.getEntry p) := by
  induction resolvedFiles generalizing cache with
  | nil =>
    exact ⟨fun f hf => absurd hf (List.not_mem_nil f), fun p hp => rfl⟩
  | cons f fs ih =>
    rw [List.map_cons, List.nodup_cons] at hnd
    have hstep : invalidateCacheMissingArtifacts cache store (f :: fs) =
        invalidateCacheMissingArtifacts (invalidateStep store cache f) store
          fs := rfl
    have ihx := ih (invalidateStep store cache f) hnd.2
    constructor
    · intro g hg
      rcases List.mem_cons.mp hg with rfl | hg2
      · rw [hstep, ihx.2 g.absolutePath hnd.1]
        exact invalidateStep_getEntry_self store cache g
      · have hne : g.absolutePath ≠ f.absolutePath := by
          intro he
          exact hnd.1 (he ▸ List.mem_map_of_mem _ hg2)
        rw [hstep, ihx.1 g hg2,
          invalidateStep_getEntry_ne store cache f g.absolutePath hne]
    · intro p hp
      have hp1 : p ≠ f.absolutePath := by
        intro he
        exact hp (by simp [he])
      have hp2 : p ∉ fs.map (fun x => x.absolutePath) := by
        intro hin
        exact hp (by simp [hin])
      rw [hstep, ihx.2 p hp2,
        invalidateStep_getEntry_ne store cache f p hp1]

/-- Claim C4, witness: one cached file whose single recorded artifact is
missing from the store; after invalidation its entry is gone. -/
theorem invalidate_cache_missing_artifacts_witness :
    ((([(⟨"contracts/A.sol", "/p/A.sol", "h", 0, [], []⟩ : ResolvedFile)]).map
        (fun f => f.absolutePath)).Nodup) ∧
    (invalidateCacheMissingArtifacts
        ⟨fun p => if p = "/p/A.sol" then
            some ⟨0, "h", "contracts/A.sol", ⟨⟨0, 8, 17⟩, "s"⟩, [], [], ["A"]⟩
          else none⟩
        ⟨fun _ => false⟩
        [⟨"contracts/A.sol", "/p/A.sol", "h", 0, [], []⟩]).getEntry
      "/p/A.sol" = none := by
  constructor
  · simp
  · have h := (invalidate_cache_missing_artifacts_exact
      ⟨fun p => if p = "/p/A.sol" then
          some ⟨0, "h", "contracts/A.sol", ⟨⟨0, 8, 17⟩, "s"⟩, [], [], ["A"]⟩
        else none⟩
      ⟨fun _ => false⟩
      [⟨"contracts/A.sol", "/p/A.sol", "h", 0, [], []⟩]
      (by simp)).1 ⟨"contracts/A.sol", "/p/A.sol", "h", 0, [], []⟩
      (by simp)
    rw [h]
    decide

/-! Helper lemmas about the cache update loop. -/

theorem addEmittedFilesOfJob_getEntry_not_mem (job : CompilationJob)
    (emitted : List (ResolvedFile × List String)) :
    ∀ cache : SolidityFilesCache, ∀ p : String,
      p ∉ emitted.map (fun fe => fe.1.absolutePath) →
      (addEmittedFilesOfJob job cache emitted).getEntry p =
        cache.getEntry p := by
  induction emitted with
  | nil => intro cache p _; rfl
  | cons fe rest ih =>
    intro cache p hp
    have hp1 : p ≠ fe.1.absolutePath := by
      intro he
      exact hp (by simp [he])
    have hp2 : p ∉ rest.map (fun x => x.1.absolutePath) := by
      intro hin
      exact hp (by simp [hin])
    have hstep : addEmittedFilesOfJob job cache (fe :: rest) =
        addEmittedFilesOfJob job
          (cache.addFile fe.1.absolutePath (cacheEntryOfEmitted job fe))
          rest := rfl
    rw [hstep, ih _ p hp2]
    simp [SolidityFilesCache.addFile, SolidityFilesCache.getEntry, hp1]

theorem addEmittedFilesOfJob_getEntry_mem (job : CompilationJob)
    (emitted : List (ResolvedFile × List String)) :
    (emitted.map (fun fe => fe.1.absolutePath)).Nodup →
    ∀ cache : SolidityFilesCache, ∀ fe ∈ emitted,
      (addEmittedFilesOfJob job cache emitted).getEntry fe.1.absolutePath =
        some (cacheEntryOfEmitted job fe) := by
  induction emitted with
  | nil => intro _ cache fe hfe; cases hfe
  | cons g rest ih =>
    intro hnd cache fe hfe
    rw [List.map_cons, List.nodup_cons] at hnd
    have hstep : addEmittedFilesOfJob job cache (g :: rest) =
        addEmittedFilesOfJob job
          (cache.addFile g.1.absolutePath (cacheEntryOfEmitted job g))
          rest := rfl
    rcases List.mem_cons.mp hfe with rfl | hfe2
    · rw [hstep, addEmittedFilesOfJob_getEntry_not_mem job rest _ _ hnd.1]
      simp [SolidityFilesCache.addFile, SolidityFilesCache.getEntry]
    · rw [hstep]
      exact ih hnd.2 _ fe hfe2

theorem updateSolidityFilesCache_getEntry_not_mem
    (artifactsEmittedPerJob :
      List (CompilationJob × List (ResolvedFile × List String))) :
    ∀ cache : SolidityFilesCache, ∀ p : String,
      p ∉ allEmittedPaths artifactsEmittedPerJob →
      (updateSolidityFilesCache cache artifactsEmittedPerJob).getEntry p =
        cache.getEntry p := by
  induction artifactsEmittedPerJob with
  | nil => intro cache p _; rfl
  | cons je rest ih =>
    intro cache p hp
    have hp1 : p ∉ je.2.map (fun fe => fe.1.absolutePath) := by
      intro hin
      exact hp (by simp [allEmittedPaths, hin])
    have hp2 : p ∉ allEmittedPaths rest := by
      intro hin
      exact hp (by simp [allEmittedPaths] at hin ⊢; exact Or.inr hin)
    have hstep : updateSolidityFilesCache cache (je :: rest) =
        updateSolidityFilesCache (addEmittedFilesOfJob je.1 cache je.2)
          rest := rfl
    rw [hstep, ih _ p hp2,
      addEmittedFilesOfJob_getEntry_not_mem je.1 je.2 _ p hp1]

theorem updateSolidityFilesCache_getEntry_mem
    (artifactsEmittedPerJob :
      List (CompilationJob × List (ResolvedFile × List String))) :
    (allEmittedPaths artifactsEmittedPerJob).Nodup →
    ∀ cache : SolidityFilesCache,
      ∀ jobEntry ∈ artifactsEmittedPerJob, ∀ fileEntry ∈ jobEntry.2,
        (updateSolidityFilesCache cache artifactsEmittedPerJob).getEntry
            fileEntry.1.absolutePath =
          some (cacheEntryOfEmitted jobEntry.1 fileEntry) := by
  induction artifactsEmittedPerJob with
  | nil => intro _ cache je hje; cases hje
  | cons je0 rest ih =>
    intro hnd cache je hje fe hfe
    have hsplit : allEmittedPaths (je0 :: rest) =
        je0.2.map (fun fe => fe.1.absolutePath) ++ allEmittedPaths rest := by
      simp [allEmittedPaths]
    rw [hsplit] at hnd
    obtain ⟨hnd1, hnd2, hdisj⟩ := List.nodup_append.mp hnd
    have hstep : updateSolidityFilesCache cache (je0 :: rest) =
        updateSolidityFilesCache (addEmittedFilesOfJob je0.1 cache je0.2)
          rest := rfl
    rcases List.mem_cons.mp hje with rfl | hje2
    · have hpmem : fe.1.absolutePath ∈ je.2.map (fun x => x.1.absolutePath) :=
        List.mem_map_of_mem _ hfe
      have hnotrest : fe.1.absolutePath ∉ allEmittedPaths rest := by
        intro hin
        exact hdisj hpmem hin
      rw [hstep, updateSolidityFilesCache_getEntry_not_mem rest _ _ hnotrest]
      exact addEmittedFilesOfJob_getEntry_mem je.1 je.2 hnd1 cache fe hfe
    · rw [hstep]
      exact ih hnd2 _ je hje2 fe hfe

/-- Claim C8: after the cache update performed at the end of a successful
build, for every job and every file of that job for which artifacts were
emitted, the cache entry stored at the absolute path of the file records
a content hash equal to the current content hash of the file and a solc
config equal to the configuration of the job that compiled it.  The
emitted files are assumed to have pairwise distinct absolute paths
across the build. -/
theorem cache_after_build_records_hash_and_config
    (cache : SolidityFilesCache)
    (artifactsEmittedPerJob :
      List (CompilationJob × List (ResolvedFile × List String)))
    (hnd : (allEmittedPaths artifactsEmittedPerJob).Nodup) :
    ∀ jobEntry ∈ artifactsEmittedPerJob, ∀ fileEntry ∈ jobEntry.2,
      ∃ entry,
        (updateSolidityFilesCache cache artifactsEmittedPerJob).getEntry
            fileEntry.1.absolutePath = some entry ∧
        entry.contentHash = fileEntry.1.contentHash ∧
        entry.solcConfig = jobEntry.1.getSolcConfig ∧
        entry.artifacts = fileEntry.2 := by
  intro jobEntry hje fileEntry hfe
  exact ⟨cacheEntryOfEmitted jobEntry.1 fileEntry,
    updateSolidityFilesCache_getEntry_mem artifactsEmittedPerJob hnd cache
      jobEntry hje fileEntry hfe, rfl, rfl, rfl⟩

/-- Concrete resolved file used by the cache update example. -/
def exampleBuiltFile : ResolvedFile :=
  ⟨"contracts/A.sol", "/p/A.sol", "hashA", 3, [], ["^0.8.0"]⟩

/-- Concrete compiled job used by the cache update example. -/
def exampleBuiltJob : CompilationJob :=
  ⟨⟨⟨0, 8, 17⟩, "s"⟩, [⟨exampleBuiltFile, true⟩]⟩

/-- Concrete per-job emission result used by the cache update example. -/
def exampleEmittedPerJob :
    List (CompilationJob × List (ResolvedFile × List String)) :=
  [(exampleBuiltJob, [(exampleBuiltFile, ["A"])])]

/-- Claim C8, witness: one compiled job with one emitted file; the final
cache holds an entry with the current hash and the job config. -/
theorem cache_after_build_records_witness :
    (allEmittedPaths exampleEmittedPerJob).Nodup ∧
    (∃ entry,
      (updateSolidityFilesCache SolidityFilesCache.emptyCache
          exampleEmittedPerJob).getEntry exampleBuiltFile.absolutePath =
        some entry ∧
      entry.contentHash = exampleBuiltFile.contentHash ∧
      entry.solcConfig = exampleBuiltJob.getSolcConfig ∧
      entry.artifacts = ["A"]) := by
  refine ⟨by decide, ?_⟩
  exact cache_after_build_records_hash_and_config
    SolidityFilesCache.emptyCache exampleEmittedPerJob (by decide)
    (exampleBuiltJob, [(exampleBuiltFile, ["A"])])
    (by simp [exampleEmittedPerJob])
    (exampleBuiltFile, ["A"]) (by simp)

/-! Helper lemma about the artifact emission loop. -/

theorem emitStep_foldl_characterization (output : CompilerOutput)
    (pathToBuildInfo : String) (l : List JobFile) :
    ∀ acc : ArtifactsState × List (ResolvedFile × List String),
      (l.foldl (emitStep output pathToBuildInfo) acc).1.savedBuildInfos =
        acc.1.savedBuildInfos ∧
      (l.foldl (emitStep output pathToBuildInfo) acc).1.savedArtifacts =
        acc.1.savedArtifacts ++
          (l.filter (fun jf => jf.emitsArtifacts)).flatMap (fun jf =>
            (contractsOfSource output jf.file.sourceName).map (fun pr =>
              (getArtifactFromContractOutput jf.file.sourceName pr.1 pr.2,
                pathToBuildInfo))) ∧
      (l.foldl (emitStep output pathToBuildInfo) acc).2 =
        acc.2 ++ (l.filter (fun jf => jf.emitsArtifacts)).map (fun jf =>
          (jf.file,
            (contractsOfSource output jf.file.sourceName).map (fun pr =>
              (getArtifactFromContractOutput jf.file.sourceName
                pr.1 pr.2).contractName))) := by
  induction l with
  | nil => intro acc; simp
  | cons jf rest ih =>
    intro acc
    rw [List.foldl_cons]
    cases h : jf.emitsArtifacts with
    | false =>
      have hstep : emitStep output pathToBuildInfo acc jf = acc := by
        simp [emitStep, h]
      rw [hstep]
      obtain ⟨ih1, ih2, ih3⟩ := ih acc
      refine ⟨ih1, ?_, ?_⟩
      · rw [ih2]
        simp [h]
      · rw [ih3]
        simp [h]
    | true =>
      obtain ⟨ih1, ih2, ih3⟩ := ih (emitStep output pathToBuildInfo acc jf)
      refine ⟨?_, ?_, ?_⟩
      · rw [ih1]
        simp [emitStep, h]
      · rw [ih2]
        simp [emitStep, h, List.map_map, List.append_assoc]
      · rw [ih3]
        simp [emitStep, h, List.map_map, List.append_assoc]

/-- Claim C9: artifact emission for a compiled job saves exactly one
build-info record, saves artifacts (with their debug files) exactly for
the contracts of input files marked as artifact-emitting, reports
exactly those files, and writes no artifact for an input file that is
present only as a dependency.  Source names within a job are assumed
pairwise distinct. -/
theorem emit_artifacts_only_for_emitting_files
    (compilationJob : CompilationJob) (output : CompilerOutput)
    (solcBuild : SolcBuild) (st : ArtifactsState)
    (hnd : (compilationJob.files.map (fun jf => jf.file.sourceName)).Nodup) :
    ((TASK_COMPILE_SOLIDITY_EMIT_ARTIFACTS compilationJob output solcBuild
        st).1.savedBuildInfos =
      st.savedBuildInfos ++
        [⟨compilationJob.getSolcConfig.version, solcBuild.longVersion⟩]) ∧
    ((TASK_COMPILE_SOLIDITY_EMIT_ARTIFACTS compilationJob output solcBuild
        st).1.savedArtifacts =
      st.savedArtifacts ++
        (compilationJob.files.filter (fun jf => jf.emitsArtifacts)).flatMap
          (fun jf => (contractsOfSource output jf.file.sourceName).map
            (fun pr => (getArtifactFromContractOutput jf.file.sourceName
              pr.1 pr.2, toString st.savedBuildInfos.length)))) ∧
    ((TASK_COMPILE_SOLIDITY_EMIT_ARTIFACTS compilationJob output solcBuild
        st).2 =
      (compilationJob.files.filter (fun jf => jf.emitsArtifacts)).map
        (fun jf => (jf.file,
          (contractsOfSource output jf.file.sourceName).map (fun pr =>
            (getArtifactFromContractOutput jf.file.sourceName
              pr.1 pr.2).contractName)))) ∧
    (∀ jf ∈ compilationJob.files, jf.emitsArtifacts = false →
      ∀ pr ∈ (TASK_COMPILE_SOLIDITY_EMIT_ARTIFACTS compilationJob output
          solcBuild st).1.savedArtifacts,
        pr ∉ st.savedArtifacts → pr.1.sourceName ≠ jf.file.sourceName) := by
  obtain ⟨h1, h2, h3⟩ := emitStep_foldl_characterization output
    (toString st.savedBuildInfos.length) compilationJob.files
    ({ st with savedBuildInfos := st.savedBuildInfos ++
        [⟨compilationJob.getSolcConfig.version, solcBuild.longVersion⟩] }, [])
  have hdef : TASK_COMPILE_SOLIDITY_EMIT_ARTIFACTS compilationJob output
      solcBuild st =
    compilationJob.files.foldl
      (emitStep output (toString st.savedBuildInfos.length))
      ({ st with savedBuildInfos := st.savedBuildInfos ++
          [⟨compilationJob.getSolcConfig.version, solcBuild.longVersion⟩] },
        []) := rfl
  refine ⟨?_, ?_, ?_, ?_⟩
  · rw [hdef, h1]
  · rw [hdef, h2]
  · rw [hdef, h3, List.nil_append]
  · intro jf hjf hemit pr hpr hnotold
    rw [hdef, h2] at hpr
    rcases List.mem_append.mp hpr with hold | hnew
    · exact absurd hold hnotold
    · obtain ⟨jf2, hjf2, hprin⟩ := List.mem_flatMap.mp hnew
      obtain ⟨pr0, hpr0, heq⟩ := List.mem_map.mp hprin
      have hsrc : pr.1.sourceName = jf2.file.sourceName := by
        rw [← heq]
        rfl
      have hjf2files : jf2 ∈ compilationJob.files :=
        List.mem_of_mem_filter hjf2
      have hjf2emits : jf2.emitsArtifacts = true := List.of_mem_filter hjf2
      intro hcontra
      have hjeq : jf2 = jf :=
        List.inj_on_of_nodup_map hnd hjf2files hjf (hsrc.symm.trans hcontra)
      rw [hjeq] at hjf2emits
      simp [hemit] at hjf2emits

/-- Concrete artifact-emitting file used by the emission example. -/
def exampleEmitFileA : ResolvedFile :=
  ⟨"contracts/A.sol", "/p/A.sol", "hashA", 0, ["contracts/D.sol"], ["^0.8.0"]⟩

/-- Concrete dependency-only file used by the emission example. -/
def exampleEmitFileD : ResolvedFile :=
  ⟨"contracts/D.sol", "/p/D.sol", "hashD", 0, [], ["^0.8.0"]⟩

/-- Concrete job of the emission example: one emitting file, one pure
dependency. -/
def exampleEmitJob : CompilationJob :=
  ⟨⟨⟨0, 8, 17⟩, "s"⟩, [⟨exampleEmitFileA, true⟩, ⟨exampleEmitFileD, false⟩]⟩

/-- Concrete compiler output of the emission example, with contracts for
both source names. -/
def exampleEmitOutput : CompilerOutput :=
  ⟨none, [("contracts/A.sol", [("A", ⟨"outA"⟩)]),
    ("contracts/D.sol", [("D", ⟨"outD"⟩)])]⟩

/-- Concrete solc build of the emission example. -/
def exampleEmitBuild : SolcBuild :=
  ⟨"/cache/solc", false, ⟨0, 8, 17⟩, "0.8.17+commit"⟩

/-- Claim C9, witness: on the example job the emission saves one build
info and no artifact carries the source name of the dependency-only
file, although the compiler output contains a contract for it. -/
theorem emit_artifacts_only_for_emitting_files_witness :
    ((exampleEmitJob.files.map (fun jf => jf.file.sourceName)).Nodup) ∧
    ((TASK_COMPILE_SOLIDITY_EMIT_ARTIFACTS exampleEmitJob exampleEmitOutput
        exampleEmitBuild ⟨[], []⟩).1.savedBuildInfos =
      [⟨⟨0, 8, 17⟩, "0.8.17+commit"⟩]) ∧
    (∀ pr ∈ (TASK_COMPILE_SOLIDITY_EMIT_ARTIFACTS exampleEmitJob
        exampleEmitOutput exampleEmitBuild ⟨[], []⟩).1.savedArtifacts,
      pr ∉ ([] : List (Artifact × String)) →
        pr.1.sourceName ≠ "contracts/D.sol") := by
  have h := emit_artifacts_only_for_emitting_files exampleEmitJob
    exampleEmitOutput exampleEmitBuild ⟨[], []⟩ (by decide)
  refine ⟨by decide, h.1, ?_⟩
  intro pr hpr hnot
  exact h.2.2.2 ⟨exampleEmitFileD, false⟩ (by decide) rfl pr hpr hnot

end HardhatCompile
